import Mathlib

/-!
Verification of the djangocms-moderation specification.

The development embeds two layers of the package:

* `ModerationExtension.configure_app`, translated line by line from
  `djangocms_moderation/cms_config.py` (the configuration-validation code).
* The moderation-request state machine, collection aggregation and bulk
  action processor.  Their implementation modules are not part of the
  source tree available here (only their test suite is), so those
  definitions are modelled from the specification, with the observable
  behaviour pinned down by `tests/test_admin_actions.py`.
-/

namespace Moderation

/-! ## Embedding of `cms_config.py` -/

/-- The attributes of a `cms_config` object that `configure_app` reads via
`getattr`, with the same defaults: a missing `djangocms_versioning_enabled`
attribute is the default `False`, missing model lists default to `[]`.
Models are identified by opaque numeric identifiers. -/
structure CmsConfig where
  djangocms_versioning_enabled : Bool
  moderated_models : List Nat
  versioning_models : List Nat
deriving DecidableEq

/-- The mutable state of the `ModerationExtension` singleton: the registry
of moderated models accumulated across app configurations. -/
structure ModerationExtension where
  moderated_models : List Nat
deriving DecidableEq

/-- The `for moderated_model in moderated_models:` loop of `configure_app`:
walks the list in order and raises `ImproperlyConfigured` (returns the
message) at the first moderated model that is not in `versioning_models`. -/
def checkModeratedModels : List Nat → List Nat → Option String
  | [], _ => none
  | m :: rest, versioning_models =>
      if versioning_models.contains m then
        checkModeratedModels rest versioning_models
      else
        some ("Moderated models need to be Versionable, please include every " ++
          "model that needs to be moderated in versioning_models entry")

/-- `ModerationExtension.configure_app`, translated from
`djangocms_moderation/cms_config.py` lines 11-26.  A raised
`ImproperlyConfigured` is returned as `some message`; the first component
is the extension state after the call (mutated only by the final
`self.moderated_models.extend(moderated_models)`, which the code reaches
only when no exception was raised before it). -/
def configure_app (self : ModerationExtension) (cms_config : CmsConfig) :
    ModerationExtension × Option String :=
  let versioning_enabled := cms_config.djangocms_versioning_enabled
  let moderated_models := cms_config.moderated_models
  let versioning_models := cms_config.versioning_models
  if versioning_enabled = false then
    (self, some "Versioning needs to be enabled for Moderation")
  else
    match checkModeratedModels moderated_models versioning_models with
    | some msg => (self, some msg)
    | none =>
        ({ self with moderated_models := self.moderated_models ++ moderated_models },
         none)

/-! ## Data model of the moderation engine

Modelled from the spec: the implementation modules (`models.py`,
`admin.py`) are not in the available source tree, so the data model
follows §3 and §6 of the specification ("Persisted state shape"), and the
operations follow §4; where the specification is ambiguous or contradicts
the repository's own test suite, the behaviour asserted by
`tests/test_admin_actions.py` is used and noted at the definition. -/

/-- Modelled from the spec: the kinds of `ModerationRequestAction` (§3). -/
inductive ActionKind where
  | started
  | approved
  | rejected
  | resubmitted
  | cancelled
deriving DecidableEq

/-- Modelled from the spec: a `Role`, optionally bound to a user and/or a
group; users are opaque numeric identities, a group is its member list
(the eligibility resolver of §6 inlined). -/
structure Role where
  user : Option Nat
  group : List Nat
deriving DecidableEq

/-- Modelled from the spec: eligibility of a user for a role resolves to
"the bound user, or a member of the bound group" (§3, §6). -/
def user_is_candidate (role : Role) (u : Nat) : Bool :=
  role.user == some u || role.group.contains u

/-- Modelled from the spec: a `WorkflowStep` (§3), identified by `id`,
with its role, order and required flag. -/
structure WorkflowStep where
  id : Nat
  role : Role
  order : Nat
  is_required : Bool
deriving DecidableEq

/-- Modelled from the spec: a `Workflow` is its ordered list of steps
(§3); the list is kept in `(order, creation)` sequence, so stage order is
the list order. -/
structure Workflow where
  steps : List WorkflowStep
deriving DecidableEq

/-- Modelled from the spec: a `ModerationRequestAction` log entry (§3):
actor, action kind, and the optional step reference the action satisfies. -/
structure MRAction where
  by_user : Nat
  action : ActionKind
  step : Option Nat
deriving DecidableEq

/-- Modelled from the spec: the state of the external version object
(DRAFT/PUBLISHED, §6), kept on the request for the shallow embedding. -/
inductive VersionState where
  | draft
  | published
deriving DecidableEq

/-- Modelled from the spec: a `ModerationRequest` (§3): content version
reference (with its external state), `is_active` flag and the append-only
action log. -/
structure ModerationRequest where
  id : Nat
  version : Nat
  version_state : VersionState
  is_active : Bool
  actions : List MRAction
deriving DecidableEq

/-- Modelled from the spec: collection statuses (§3). -/
inductive CollectionStatus where
  | collecting
  | inReview
  | archived
  | cancelledStatus
deriving DecidableEq

/-- Modelled from the spec: a `ModerationCollection` carrying its
aggregate status and its owned requests (§3). -/
structure Collection where
  status : CollectionStatus
  requests : List ModerationRequest
deriving DecidableEq

/-- Modelled from the spec: derived request states (§4.1); not stored,
computed by folding the action log. -/
inductive MRState where
  | pending
  | approved
  | rejected
  | cancelled
deriving DecidableEq

/-- Modelled from the spec: whether an action kind opens a new approval
window — "satisfied" means an APPROVED action *after the most recent
STARTED/RESUBMITTED/REJECTED action" (§4.1). -/
def resetsCycle : ActionKind → Bool
  | .started => true
  | .resubmitted => true
  | .rejected => true
  | _ => false

/-- Modelled from the spec: the actions of the current approval window —
those after the most recent STARTED/RESUBMITTED/REJECTED action (§4.1). -/
def cycleActions (actions : List MRAction) : List MRAction :=
  actions.foldl (fun acc a => if resetsCycle a.action then [] else acc ++ [a]) []

/-- Modelled from the spec: a step is satisfied when the current window
holds an APPROVED action referencing it (§4.1). -/
def stepSatisfied (actions : List MRAction) (s : WorkflowStep) : Bool :=
  (cycleActions actions).any (fun a => a.action == .approved && a.step == some s.id)

/-- Modelled from the spec: every required step of the workflow is
satisfied in the current window (§4.1 APPROVED condition). -/
def allRequiredSatisfied (wf : Workflow) (actions : List MRAction) : Bool :=
  wf.steps.all (fun s => !s.is_required || stepSatisfied actions s)

/-- Modelled from the spec: derived request state (§4.1): CANCELLED /
REJECTED by the most recent action, APPROVED when every required step is
satisfied, PENDING otherwise. -/
def requestState (wf : Workflow) (r : ModerationRequest) : MRState :=
  match r.actions.getLast? with
  | none => .pending
  | some a =>
    match a.action with
    | .cancelled => .cancelled
    | .rejected => .rejected
    | _ => if allRequiredSatisfied wf r.actions then .approved else .pending

/-- Modelled from the spec: the unsatisfied steps, in workflow order
(§4.1 "current step resolution"). -/
def pendingSteps (wf : Workflow) (actions : List MRAction) : List WorkflowStep :=
  wf.steps.filter (fun s => !stepSatisfied actions s)

/-- Modelled from the spec: walk the pending steps in order; the user may
act on the first pending step they are a candidate for, but an unsatisfied
*required* step whose role they do not hold blocks all later steps.  (This
refines §4.1's "eligible for the current unsatisfied step's Role" to the
behaviour the test suite asserts: in
`test_approve_selected_sends_correct_emails` a user who is candidate for a
later pending step but not for the first pending required one is skipped.) -/
def findUserStep (u : Nat) : List WorkflowStep → Option WorkflowStep
  | [] => none
  | s :: rest =>
      if user_is_candidate s.role u then some s
      else if s.is_required then none
      else findUserStep u rest

/-- Modelled from the spec: the step a user's approval or rejection would
act on, `none` when the user may not act (§4.1). -/
def userStep (wf : Workflow) (u : Nat) (actions : List MRAction) : Option WorkflowStep :=
  findUserStep u (pendingSteps wf actions)

/-! ## Per-request transitions

Modelled from the spec (§4.1).  Each transition returns `some` updated
request when the operation is legal in the current derived state for the
acting user, and `none` when the request must be skipped.  Note: reaching
full approval does *not* clear `is_active` and does not publish the
version — `test_publish_selected` asserts that a fully approved request
still has `is_active = True` and a DRAFT version until the separate
publish operation runs. -/

/-- Modelled from the spec: APPROVED transition (§4.1) — legal only while
PENDING and only for a user holding the current step's role; appends an
action tagged with that step and also returns the step id (the
notification-grouping key of §4.3). -/
def approveOne (wf : Workflow) (u : Nat) (r : ModerationRequest) :
    Option (ModerationRequest × Nat) :=
  match requestState wf r with
  | .pending =>
    match userStep wf u r.actions with
    | some s =>
        some ({ r with actions := r.actions ++ [⟨u, .approved, some s.id⟩] }, s.id)
    | none => none
  | _ => none

/-- Modelled from the spec: REJECTED transition (§4.1) — legal while
PENDING for any user eligible for the current step; `is_active` becomes
false (rejected-awaiting-resubmission). -/
def rejectOne (wf : Workflow) (u : Nat) (r : ModerationRequest) :
    Option ModerationRequest :=
  match requestState wf r with
  | .pending =>
      if (userStep wf u r.actions).isSome then
        some { r with actions := r.actions ++ [⟨u, .rejected, none⟩], is_active := false }
      else none
  | _ => none

/-- Modelled from the spec: RESUBMITTED transition (§4.1) — legal only on
a REJECTED request; re-activates it. -/
def resubmitOne (wf : Workflow) (u : Nat) (r : ModerationRequest) :
    Option ModerationRequest :=
  match requestState wf r with
  | .rejected =>
      some { r with actions := r.actions ++ [⟨u, .resubmitted, none⟩], is_active := true }
  | _ => none

/-- Modelled from the spec: the publish step (§4.3 item 3) — legal for a
request whose derived state is APPROVED and that was not yet forwarded to
the publish collaborator (still `is_active`); hands the version to the
external publish collaborator and marks the request inactive. -/
def publishOne (wf : Workflow) (r : ModerationRequest) : Option ModerationRequest :=
  match requestState wf r with
  | .approved =>
      if r.is_active then
        some { r with version_state := .published, is_active := false }
      else none
  | _ => none

/-- Modelled from the spec: CANCELLED transition used by deletion (§4.2):
every still-active targeted request gets a CANCELLED action and is
deactivated.  (`test_delete_selected` shows the approved-but-active
request is cancelled too, so the criterion is `is_active`, not the
derived state.) -/
def cancelOne (u : Nat) (r : ModerationRequest) : Option ModerationRequest :=
  if r.is_active then
    some { r with actions := r.actions ++ [⟨u, .cancelled, none⟩], is_active := false }
  else none

/-! ## Collection aggregation (§4.2) -/

/-- Modelled from the spec: a request counts towards archiving when its
derived state is APPROVED or CANCELLED (§4.2, and the claim's phrasing;
`test_approve_selected` shows fully approved requests archive the
collection even though they are still `is_active`). -/
def isResolved (wf : Workflow) (r : ModerationRequest) : Bool :=
  match requestState wf r with
  | .approved => true
  | .cancelled => true
  | _ => false

/-- Modelled from the spec: a collection is eligible for ARCHIVED when
every owned request is resolved (§4.2). -/
def shouldBeArchived (wf : Workflow) (c : Collection) : Bool :=
  c.requests.all (isResolved wf)

/-- Modelled from the spec: the aggregation re-evaluation (§4.2),
triggered after approvals and deletions; moves IN_REVIEW to ARCHIVED and
never reopens. -/
def reevaluate (wf : Workflow) (c : Collection) : Collection :=
  if c.status = CollectionStatus.inReview ∧ shouldBeArchived wf c = true then
    { c with status := CollectionStatus.archived }
  else c

/-! ## Bulk action processor (§4.3) -/

/-- Modelled from the spec: one emitted
`notify_collection_moderators(collection, moderation_requests, action_obj)`
call: the notified request ids and the step-group key of the approval
(`none` for the ungrouped resubmission notification). -/
structure NotifyModeratorsCall where
  moderation_requests : List Nat
  step : Option Nat
deriving DecidableEq

/-- Modelled from the spec: one emitted
`notify_collection_author(collection, moderation_requests, action, by_user)`
call. -/
structure NotifyAuthorCall where
  moderation_requests : List Nat
  action : ActionKind
  by_user : Nat
deriving DecidableEq

/-- Modelled from the spec: the outcome of a bulk operation — the updated
collection plus the outbound side effects the core emits: notification
calls, the versions handed to the publish collaborator, and the cancelled
request snapshots recorded before a deletion. -/
structure BulkResult where
  collection : Collection
  moderatorCalls : List NotifyModeratorsCall
  authorCalls : List NotifyAuthorCall
  publishedVersions : List Nat
  cancelled : List ModerationRequest
deriving DecidableEq

/-- Modelled from the spec: apply a per-request transition to every
selected request, keeping ineligible or unselected rows unchanged
(§4.3 item 1: skipped rows never abort the batch). -/
def processRequests (f : ModerationRequest → Option ModerationRequest)
    (sel : List Nat) (reqs : List ModerationRequest) : List ModerationRequest :=
  reqs.map (fun r => if sel.contains r.id then (f r).getD r else r)

/-- Modelled from the spec: the post-transition snapshots of the selected
requests the operation actually affected, in processing order. -/
def affectedRequests (f : ModerationRequest → Option ModerationRequest)
    (sel : List Nat) (reqs : List ModerationRequest) : List ModerationRequest :=
  reqs.filterMap (fun r => if sel.contains r.id then f r else none)

/-- Modelled from the spec: grouping of keyed entries by key, groups
ordered by the first occurrence of a member, members kept in order
(§4.3 item 2). -/
def groupPairs : List (Nat × Nat) → List (Nat × List Nat)
  | [] => []
  | p :: rest =>
      (p.1, p.2 :: (rest.filter (fun q => q.1 == p.1)).map (fun q => q.2)) ::
        groupPairs (rest.filter (fun q => q.1 != p.1))
termination_by l => l.length
decreasing_by
  simp only [List.length_cons]
  exact Nat.lt_succ_of_le (List.length_filter_le _ _)

/-- Modelled from the spec: the distinct keys of a keyed list, in order of
first occurrence. -/
def keysDedup : List (Nat × Nat) → List Nat
  | [] => []
  | p :: rest => p.1 :: keysDedup (rest.filter (fun q => q.1 != p.1))
termination_by l => l.length
decreasing_by
  simp only [List.length_cons]
  exact Nat.lt_succ_of_le (List.length_filter_le _ _)

/-- Modelled from the spec: the `(post-request, approved-step id)` pairs
of the selected requests an approval batch affects (§4.3 item 2). -/
def approveOutcomes (wf : Workflow) (u : Nat) (sel : List Nat)
    (reqs : List ModerationRequest) : List (ModerationRequest × Nat) :=
  reqs.filterMap (fun r => if sel.contains r.id then approveOne wf u r else none)

/-- Modelled from the spec: the `(step-group key, request id)` pairs that
feed the moderator notifications of a bulk approval: the approved
requests that still have an unsatisfied required step afterwards.  A
request whose approval completed the last required step is omitted —
`test_approve_selected` and `test_approve_selected_sends_correct_emails`
assert no moderator notification at the final stage. -/
def approveSurvivorPairs (wf : Workflow) (u : Nat) (sel : List Nat)
    (reqs : List ModerationRequest) : List (Nat × Nat) :=
  (approveOutcomes wf u sel reqs).filterMap
    (fun p => if allRequiredSatisfied wf p.1.actions then none else some (p.2, p.1.id))

/-- Modelled from the spec: one moderator-notification call per step
group, in first-occurrence order (§4.3 item 2). -/
def moderatorCallsFor (pairs : List (Nat × Nat)) : List NotifyModeratorsCall :=
  (groupPairs pairs).map (fun g => ⟨g.2, some g.1⟩)

/-- Modelled from the spec: the first-occurrence-ordered distinct group
keys of a bulk approval (the claim's "distinct step-groups"). -/
def approveGroupKeys (wf : Workflow) (u : Nat) (sel : List Nat)
    (reqs : List ModerationRequest) : List Nat :=
  keysDedup ((approveOutcomes wf u sel reqs).map (fun p => (p.2, p.1.id)))

/-- Modelled from the spec: bulk approve (§4.3 items 1-2): approve every
eligible selected request, notify the author once for the whole affected
set, notify moderators once per surviving step group, and re-run the
aggregation (§4.2). -/
def bulkApprove (wf : Workflow) (u : Nat) (sel : List Nat) (c : Collection) :
    BulkResult :=
  let outcomes := approveOutcomes wf u sel c.requests
  { collection :=
      reevaluate wf
        { c with
          requests := processRequests (fun r => (approveOne wf u r).map Prod.fst) sel c.requests },
    moderatorCalls := moderatorCallsFor (approveSurvivorPairs wf u sel c.requests),
    authorCalls :=
      if outcomes = [] then []
      else [⟨outcomes.map (fun p => p.1.id), .approved, u⟩],
    publishedVersions := [],
    cancelled := [] }

/-- Modelled from the spec: bulk reject (§4.3 item 4): reject every
eligible selected request and batch a single notify-author call for the
whole affected set; no moderator notification
(`test_reject_selected`). -/
def bulkReject (wf : Workflow) (u : Nat) (sel : List Nat) (c : Collection) :
    BulkResult :=
  let affected := affectedRequests (rejectOne wf u) sel c.requests
  { collection := { c with requests := processRequests (rejectOne wf u) sel c.requests },
    moderatorCalls := [],
    authorCalls :=
      if affected = [] then [] else [⟨affected.map (fun r => r.id), .rejected, u⟩],
    publishedVersions := [],
    cancelled := [] }

/-- Modelled from the spec: bulk resubmit (§4.3 item 4): resubmit every
eligible selected request.  The single batched notification for the whole
affected set goes to the *moderators* (the reviewers of the re-activated
step), not to the author — `test_resubmit_selected` asserts
`notify_collection_author` is not called and
`notify_collection_moderators` is called exactly once. -/
def bulkResubmit (wf : Workflow) (u : Nat) (sel : List Nat) (c : Collection) :
    BulkResult :=
  let affected := affectedRequests (resubmitOne wf u) sel c.requests
  { collection := { c with requests := processRequests (resubmitOne wf u) sel c.requests },
    moderatorCalls :=
      if affected = [] then [] else [⟨affected.map (fun r => r.id), none⟩],
    authorCalls := [],
    publishedVersions := [],
    cancelled := [] }

/-- Modelled from the spec: bulk publish (§4.3 item 3): publish exactly
the selected requests whose derived state is APPROVED and that were not
yet forwarded; every other selected row is untouched
(`test_publish_selected`). -/
def bulkPublish (wf : Workflow) (u : Nat) (sel : List Nat) (c : Collection) :
    BulkResult :=
  let affected := affectedRequests (publishOne wf) sel c.requests
  { collection := { c with requests := processRequests (publishOne wf) sel c.requests },
    moderatorCalls := [],
    authorCalls := [],
    publishedVersions := affected.map (fun r => r.version),
    cancelled := [] }

/-- Modelled from the spec: bulk delete (§4.3 item 5, §4.2): cancel every
still-active targeted request (emitting CANCELLED actions), remove the
targeted requests, notify the author once with the cancelled set, and
re-run the aggregation. -/
def bulkDelete (wf : Workflow) (u : Nat) (sel : List Nat) (c : Collection) :
    BulkResult :=
  let cancelledReqs :=
    c.requests.filterMap (fun r => if sel.contains r.id then cancelOne u r else none)
  { collection :=
      reevaluate wf { c with requests := c.requests.filter (fun r => !sel.contains r.id) },
    moderatorCalls := [],
    authorCalls :=
      if cancelledReqs = [] then []
      else [⟨cancelledReqs.map (fun r => r.id), .cancelled, u⟩],
    publishedVersions := [],
    cancelled := cancelledReqs }

/-- Modelled from the spec: the bulk operation kinds of §4.3. -/
inductive BulkOp where
  | approve
  | reject
  | resubmit
  | publish
  | deleteSelected
deriving DecidableEq

/-- Modelled from the spec: dispatch of the bulk action processor. -/
def runBulk (op : BulkOp) (wf : Workflow) (u : Nat) (sel : List Nat)
    (c : Collection) : BulkResult :=
  match op with
  | .approve => bulkApprove wf u sel c
  | .reject => bulkReject wf u sel c
  | .resubmit => bulkResubmit wf u sel c
  | .publish => bulkPublish wf u sel c
  | .deleteSelected => bulkDelete wf u sel c

/-- Modelled from the spec: the per-request transition a bulk operation
applies (the publish collaborator ignores the acting user at the request
level; delete is handled separately by `bulkDelete`). -/
def applyOne (op : BulkOp) (wf : Workflow) (u : Nat) (r : ModerationRequest) :
    Option ModerationRequest :=
  match op with
  | .approve => (approveOne wf u r).map Prod.fst
  | .reject => rejectOne wf u r
  | .resubmit => resubmitOne wf u r
  | .publish => publishOne wf r
  | .deleteSelected => cancelOne u r

/-! ## Theorems about `configure_app` (claims C8-C10) -/

/-- The moderated-model loop errors whenever some listed model is missing
from `versioning_models`. -/
lemma checkModeratedModels_isSome (l vms : List Nat)
    (h : ∃ m ∈ l, vms.contains m = false) :
    (checkModeratedModels l vms).isSome = true := by
  induction l with
  | nil => obtain ⟨m, hm, _⟩ := h; exact absurd hm (List.not_mem_nil m)
  | cons a rest ih =>
      obtain ⟨m, hm, hmv⟩ := h
      by_cases hc : a ∈ vms
      · have hmr : m ∈ rest := by
          rcases List.mem_cons.mp hm with h1 | h1
          · subst h1; simp [hc] at hmv
          · exact h1
        simpa [checkModeratedModels, hc] using ih ⟨m, hmr, hmv⟩
      · simp [checkModeratedModels, hc]

/-- C8: for every app configuration in which some registered moderated
model is not contained in the `versioning_models` list, `configure_app`
raises `ImproperlyConfigured` at configuration time. -/
theorem configure_app_unversionable_raises (ext : ModerationExtension)
    (cfg : CmsConfig)
    (h : ∃ m ∈ cfg.moderated_models, cfg.versioning_models.contains m = false) :
    ((configure_app ext cfg).2).isSome = true := by
  by_cases he : cfg.djangocms_versioning_enabled = false
  · simp [configure_app, he]
  · have hsome := checkModeratedModels_isSome cfg.moderated_models cfg.versioning_models h
    cases hck : checkModeratedModels cfg.moderated_models cfg.versioning_models with
    | some msg => simp [configure_app, he, hck]
    | none => rw [hck] at hsome; simp at hsome

/-- C8 witness: a configuration registering moderated model `5` with an
empty `versioning_models` list is rejected. -/
theorem configure_app_unversionable_raises_w :
    ((configure_app ⟨[]⟩ ⟨true, [5], []⟩).2).isSome = true :=
  configure_app_unversionable_raises ⟨[]⟩ ⟨true, [5], []⟩
    ⟨5, by decide, by decide⟩

/-- C9: whenever `djangocms_versioning_enabled` is false (the `getattr`
default when the attribute is absent), `configure_app` raises
`ImproperlyConfigured` unconditionally — also when the config registers no
moderated models at all. -/
theorem configure_app_requires_versioning (ext : ModerationExtension)
    (cfg : CmsConfig) (h : cfg.djangocms_versioning_enabled = false) :
    (configure_app ext cfg).2 =
      some "Versioning needs to be enabled for Moderation" := by
  simp [configure_app, h]

/-- C9 witness: a versioning-disabled config with no moderated models at
all still raises. -/
theorem configure_app_requires_versioning_w :
    (configure_app ⟨[]⟩ ⟨false, [], []⟩).2 =
      some "Versioning needs to be enabled for Moderation" :=
  configure_app_requires_versioning ⟨[]⟩ ⟨false, [], []⟩ rfl

/-- C10: `configure_app` is atomic with respect to the moderated-model
registry: whenever it raises, the extension state is left exactly as it
was — validation completes before the registry is extended. -/
theorem configure_app_atomic (ext : ModerationExtension) (cfg : CmsConfig)
    (h : ((configure_app ext cfg).2).isSome = true) :
    (configure_app ext cfg).1 = ext := by
  by_cases he : cfg.djangocms_versioning_enabled = false
  · simp [configure_app, he]
  · cases hck : checkModeratedModels cfg.moderated_models cfg.versioning_models with
    | some msg => simp [configure_app, he, hck]
    | none => simp [configure_app, he, hck] at h

/-- C10 witness: a failing configuration leaves a previously populated
registry untouched. -/
theorem configure_app_atomic_w :
    (configure_app ⟨[7]⟩ ⟨true, [5], []⟩).1 = ⟨[7]⟩ :=
  configure_app_atomic ⟨[7]⟩ ⟨true, [5], []⟩ (by decide)

/-! ## Collection aggregation lemmas (claim C2) -/

/-- A request is resolved exactly when its derived state is APPROVED or
CANCELLED. -/
lemma isResolved_iff (wf : Workflow) (r : ModerationRequest) :
    isResolved wf r = true ↔
      (requestState wf r = .approved ∨ requestState wf r = .cancelled) := by
  cases h : requestState wf r <;> simp [isResolved, h]

/-- Re-evaluation never touches the request list. -/
lemma reevaluate_requests (wf : Workflow) (c : Collection) :
    (reevaluate wf c).requests = c.requests := by
  unfold reevaluate; split <;> rfl

/-- An IN_REVIEW collection re-evaluates to ARCHIVED exactly when every
owned request is APPROVED or CANCELLED. -/
lemma reevaluate_archived_iff (wf : Workflow) (c : Collection)
    (h : c.status = CollectionStatus.inReview) :
    ((reevaluate wf c).status = CollectionStatus.archived) ↔
      (∀ r ∈ c.requests,
        requestState wf r = .approved ∨ requestState wf r = .cancelled) := by
  by_cases hs : shouldBeArchived wf c = true
  · have hall : ∀ r ∈ c.requests,
        requestState wf r = .approved ∨ requestState wf r = .cancelled := by
      intro r hr
      exact (isResolved_iff wf r).mp (List.all_eq_true.mp hs r hr)
    have harch : (reevaluate wf c).status = CollectionStatus.archived := by
      unfold reevaluate
      rw [if_pos ⟨h, hs⟩]
    exact ⟨fun _ => hall, fun _ => harch⟩
  · constructor
    · intro harch
      exfalso
      unfold reevaluate at harch
      rw [if_neg (fun hcon => hs hcon.2)] at harch
      rw [h] at harch
      cases harch
    · intro hall
      exact absurd
        (List.all_eq_true.mpr fun r hr => (isResolved_iff wf r).mpr (hall r hr)) hs

/-- A PENDING or REJECTED state is neither APPROVED nor CANCELLED. -/
lemma MRState_not_resolved (s : MRState)
    (h : s = .pending ∨ s = .rejected) :
    ¬ (s = .approved ∨ s = .cancelled) := by
  rcases h with h | h <;> subst h <;> decide

/-- Re-evaluation either archives the collection or leaves its status
alone. -/
lemma reevaluate_status_cases (wf : Workflow) (c : Collection) :
    (reevaluate wf c).status = CollectionStatus.archived ∨
      (reevaluate wf c).status = c.status := by
  unfold reevaluate
  split
  · left; rfl
  · right; rfl

/-- The three C2 conclusions for a collection that went through
re-evaluation while IN_REVIEW. -/
lemma reevaluate_conclusions (wf : Workflow) (c : Collection)
    (h : c.status = CollectionStatus.inReview) :
    ((reevaluate wf c).status = CollectionStatus.archived →
        ∀ r ∈ (reevaluate wf c).requests,
          requestState wf r = .approved ∨ requestState wf r = .cancelled)
    ∧ ((∃ r ∈ (reevaluate wf c).requests,
          requestState wf r = .pending ∨ requestState wf r = .rejected) →
        (reevaluate wf c).status = CollectionStatus.inReview)
    ∧ ((reevaluate wf c).status = CollectionStatus.archived ↔
        ∀ r ∈ (reevaluate wf c).requests,
          requestState wf r = .approved ∨ requestState wf r = .cancelled) := by
  have hreq := reevaluate_requests wf c
  have hiff := reevaluate_archived_iff wf c h
  rw [hreq]
  refine ⟨fun ha => hiff.mp ha, ?_, hiff⟩
  intro ⟨r, hr, hbad⟩
  by_cases harch : (reevaluate wf c).status = CollectionStatus.archived
  · exact absurd (hiff.mp harch r hr) (MRState_not_resolved _ hbad)
  · rcases reevaluate_status_cases wf c with hA | hB
    · exact absurd hA harch
    · rw [hB, h]

/-- C2: after each bulk operation on an IN_REVIEW collection the status is
ARCHIVED only if every owned request is APPROVED or CANCELLED; any owned
request left PENDING or REJECTED keeps the status IN_REVIEW; and for the
operations that trigger re-evaluation (approve and delete) the ARCHIVED
status is exactly equivalent to every owned request being APPROVED or
CANCELLED. -/
theorem collection_archival_aggregation (op : BulkOp) (wf : Workflow)
    (u : Nat) (sel : List Nat) (c : Collection)
    (h : c.status = CollectionStatus.inReview) :
    ((runBulk op wf u sel c).collection.status = CollectionStatus.archived →
        ∀ r ∈ (runBulk op wf u sel c).collection.requests,
          requestState wf r = .approved ∨ requestState wf r = .cancelled)
    ∧ ((∃ r ∈ (runBulk op wf u sel c).collection.requests,
          requestState wf r = .pending ∨ requestState wf r = .rejected) →
        (runBulk op wf u sel c).collection.status = CollectionStatus.inReview)
    ∧ ((op = BulkOp.approve ∨ op = BulkOp.deleteSelected) →
        ((runBulk op wf u sel c).collection.status = CollectionStatus.archived ↔
          ∀ r ∈ (runBulk op wf u sel c).collection.requests,
            requestState wf r = .approved ∨ requestState wf r = .cancelled)) := by
  cases op with
  | approve =>
      have hmain := reevaluate_conclusions wf
        { c with requests :=
            processRequests (fun r => (approveOne wf u r).map Prod.fst) sel c.requests } h
      exact ⟨hmain.1, hmain.2.1, fun _ => hmain.2.2⟩
  | deleteSelected =>
      have hmain := reevaluate_conclusions wf
        { c with requests := c.requests.filter (fun r => !sel.contains r.id) } h
      exact ⟨hmain.1, hmain.2.1, fun _ => hmain.2.2⟩
  | reject =>
      have hst : (runBulk BulkOp.reject wf u sel c).collection.status = c.status := rfl
      refine ⟨?_, fun _ => hst.trans h, ?_⟩
      · intro harch; rw [hst, h] at harch; cases harch
      · intro hop; rcases hop with hop | hop <;> cases hop
  | resubmit =>
      have hst : (runBulk BulkOp.resubmit wf u sel c).collection.status = c.status := rfl
      refine ⟨?_, fun _ => hst.trans h, ?_⟩
      · intro harch; rw [hst, h] at harch; cases harch
      · intro hop; rcases hop with hop | hop <;> cases hop
  | publish =>
      have hst : (runBulk BulkOp.publish wf u sel c).collection.status = c.status := rfl
      refine ⟨?_, fun _ => hst.trans h, ?_⟩
      · intro harch; rw [hst, h] at harch; cases harch
      · intro hop; rcases hop with hop | hop <;> cases hop

/-! ## Concrete fixtures mirroring the test suite's `setUp` -/

/-- Two required parallel steps: step 1 for role user 1, step 2 for role
user 2 (the `wfst1`/`wfst2` of the tests). -/
def wfW : Workflow :=
  ⟨[⟨1, ⟨some 1, []⟩, 1, true⟩, ⟨2, ⟨some 2, []⟩, 1, true⟩]⟩

/-- A fully approved, still active request (the tests' `mr1`). -/
def mr1W : ModerationRequest :=
  ⟨1, 11, .draft, true,
    [⟨1, .started, none⟩, ⟨1, .approved, some 1⟩, ⟨2, .approved, some 2⟩]⟩

/-- A freshly started, pending request (the tests' `mr2`). -/
def mr2W : ModerationRequest := ⟨2, 12, .draft, true, [⟨1, .started, none⟩]⟩

/-- The tests' collection: IN_REVIEW with `mr1` approved and `mr2`
pending. -/
def cW : Collection := ⟨.inReview, [mr1W, mr2W]⟩

/-- A rejected, deactivated request awaiting resubmission. -/
def mrRejW : ModerationRequest :=
  ⟨2, 12, .draft, false, [⟨1, .started, none⟩, ⟨1, .rejected, none⟩]⟩

/-- A collection holding an approved and a rejected request. -/
def cRejW : Collection := ⟨.inReview, [mr1W, mrRejW]⟩

/-- C2 witness: a bulk approve over a collection whose single owned
request is fully approved archives it. -/
theorem collection_archival_aggregation_w :
    (runBulk BulkOp.approve wfW 1 [] ⟨.inReview, [mr1W]⟩).collection.status =
      CollectionStatus.archived := by
  have hmain :=
    collection_archival_aggregation BulkOp.approve wfW 1 [] ⟨.inReview, [mr1W]⟩ rfl
  exact (hmain.2.2 (Or.inl rfl)).mpr (by decide)

/-! ## Per-row skipping in bulk operations (claim C7) -/

/-- C7: every bulk operation processes its whole selection row by row: a
selected request for which the transition is illegal in its current
derived state (`applyOne` returns `none` — e.g. re-approving or rejecting
an APPROVED request, resubmitting a non-REJECTED request, publishing a
non-APPROVED request, cancelling an inactive request) is kept completely
unchanged, every eligible selected request is transformed, and no
ineligible row aborts the batch (the result is a total function of the
input list). -/
theorem bulk_ops_skip_ineligible (wf : Workflow) (u : Nat) (sel : List Nat)
    (c : Collection) :
    ((bulkApprove wf u sel c).collection.requests =
        c.requests.map (fun r =>
          if sel.contains r.id then ((approveOne wf u r).map Prod.fst).getD r else r))
    ∧ ((bulkReject wf u sel c).collection.requests =
        c.requests.map (fun r =>
          if sel.contains r.id then (rejectOne wf u r).getD r else r))
    ∧ ((bulkResubmit wf u sel c).collection.requests =
        c.requests.map (fun r =>
          if sel.contains r.id then (resubmitOne wf u r).getD r else r))
    ∧ ((bulkPublish wf u sel c).collection.requests =
        c.requests.map (fun r =>
          if sel.contains r.id then (publishOne wf r).getD r else r))
    ∧ ((bulkDelete wf u sel c).cancelled =
        c.requests.filterMap (fun r =>
          if sel.contains r.id then cancelOne u r else none))
    ∧ (∀ r : ModerationRequest, requestState wf r ≠ MRState.pending →
        approveOne wf u r = none ∧ rejectOne wf u r = none)
    ∧ (∀ r : ModerationRequest, requestState wf r ≠ MRState.rejected →
        resubmitOne wf u r = none)
    ∧ (∀ r : ModerationRequest, requestState wf r ≠ MRState.approved →
        publishOne wf r = none)
    ∧ (∀ r : ModerationRequest, r.is_active = false → cancelOne u r = none) := by
  refine ⟨(reevaluate_requests wf _).trans rfl, rfl, rfl, rfl, rfl, ?_, ?_, ?_, ?_⟩
  · intro r hne
    cases hst : requestState wf r <;>
      first
        | exact absurd hst hne
        | exact ⟨by simp [approveOne, hst], by simp [rejectOne, hst]⟩
  · intro r hne
    cases hst : requestState wf r <;>
      first
        | exact absurd hst hne
        | simp [resubmitOne, hst]
  · intro r hne
    cases hst : requestState wf r <;>
      first
        | exact absurd hst hne
        | simp [publishOne, hst]
  · intro r hin
    simp [cancelOne, hin]

/-- C7 witness: on the tests' collection the approved request `mr1` is
skipped by approve, reject and resubmit, and the pending request `mr2` is
skipped by publish. -/
theorem bulk_ops_skip_ineligible_w :
    (approveOne wfW 1 mr1W = none ∧ rejectOne wfW 1 mr1W = none)
    ∧ resubmitOne wfW 1 mr1W = none
    ∧ publishOne wfW mr2W = none
    ∧ cancelOne 1 mrRejW = none := by
  have hmain := bulk_ops_skip_ineligible wfW 1 [1, 2] cW
  exact ⟨hmain.2.2.2.2.2.1 mr1W (by decide),
         hmain.2.2.2.2.2.2.1 mr1W (by decide),
         hmain.2.2.2.2.2.2.2.1 mr2W (by decide),
         hmain.2.2.2.2.2.2.2.2 mrRejW (by decide)⟩

/-! ## Batched notifications of bulk reject and resubmit (claim C6) -/

/-- C6 counterexample: a bulk resubmit that affects one request emits *no*
notify-author call (it emits a moderators call instead), contradicting the
claim that reject and resubmit both batch exactly one notify-author call
— exactly as `test_resubmit_selected` asserts
(`assertFalse(notify_author_mock.called)`). -/
theorem bulk_resubmit_no_author_call_cex :
    affectedRequests (resubmitOne wfW 1) [1, 2] cRejW.requests ≠ []
    ∧ ¬ ((bulkResubmit wfW 1 [1, 2] cRejW).authorCalls.length = 1) := by
  decide

/-- C6 amended: bulk reject applies per eligible request and, when at
least one request was affected, batches exactly one notify-author call
listing the whole affected set (never notifying moderators); bulk resubmit
applies per eligible request and, when at least one request was affected,
batches exactly one notify-moderators call listing the whole affected set,
emitting no notify-author call at all.  Neither operation groups its
single batched notification per step. -/
theorem bulk_reject_resubmit_single_notification (wf : Workflow) (u : Nat)
    (sel : List Nat) (c : Collection) :
    ((bulkReject wf u sel c).moderatorCalls = [])
    ∧ (affectedRequests (rejectOne wf u) sel c.requests = [] →
        (bulkReject wf u sel c).authorCalls = [])
    ∧ (affectedRequests (rejectOne wf u) sel c.requests ≠ [] →
        (bulkReject wf u sel c).authorCalls =
          [⟨(affectedRequests (rejectOne wf u) sel c.requests).map (fun r => r.id),
            .rejected, u⟩])
    ∧ ((bulkResubmit wf u sel c).authorCalls = [])
    ∧ (affectedRequests (resubmitOne wf u) sel c.requests = [] →
        (bulkResubmit wf u sel c).moderatorCalls = [])
    ∧ (affectedRequests (resubmitOne wf u) sel c.requests ≠ [] →
        (bulkResubmit wf u sel c).moderatorCalls =
          [⟨(affectedRequests (resubmitOne wf u) sel c.requests).map (fun r => r.id),
            none⟩]) := by
  refine ⟨rfl, ?_, ?_, rfl, ?_, ?_⟩ <;> intro haff <;> simp [bulkReject, bulkResubmit, haff]

/-- C6 witness: on the tests' collections, rejecting notifies the author
once with the single affected request, and resubmitting notifies the
moderators once with the single affected request. -/
theorem bulk_reject_resubmit_single_notification_w :
    (bulkReject wfW 1 [1, 2] cW).authorCalls = [⟨[2], .rejected, 1⟩]
    ∧ (bulkResubmit wfW 1 [1, 2] cRejW).moderatorCalls = [⟨[2], none⟩] := by
  have h1 := bulk_reject_resubmit_single_notification wfW 1 [1, 2] cW
  have h2 := bulk_reject_resubmit_single_notification wfW 1 [1, 2] cRejW
  constructor
  · rw [h1.2.2.1 (by decide)]; decide
  · rw [h2.2.2.2.2.2 (by decide)]; decide

/-! ## Deleting a collection's requests (claim C5) -/

/-- C5: deleting both requests of an IN_REVIEW collection with two active
moderation requests appends a CANCELLED action to each of the two
requests before deletion, leaves the collection empty with final status
ARCHIVED, and emits exactly one notify-author call listing both requests
with action CANCELLED; moderators are not notified. -/
theorem bulk_delete_cancels_then_archives (wf : Workflow) (u : Nat)
    (r1 r2 : ModerationRequest)
    (h1 : r1.is_active = true) (h2 : r2.is_active = true) :
    ((bulkDelete wf u [r1.id, r2.id]
        ⟨CollectionStatus.inReview, [r1, r2]⟩).collection.requests = [])
    ∧ ((bulkDelete wf u [r1.id, r2.id]
        ⟨CollectionStatus.inReview, [r1, r2]⟩).collection.status =
          CollectionStatus.archived)
    ∧ ((bulkDelete wf u [r1.id, r2.id]
        ⟨CollectionStatus.inReview, [r1, r2]⟩).cancelled.map
          (fun r => r.actions) =
        [r1.actions ++ [⟨u, .cancelled, none⟩],
         r2.actions ++ [⟨u, .cancelled, none⟩]])
    ∧ ((bulkDelete wf u [r1.id, r2.id]
        ⟨CollectionStatus.inReview, [r1, r2]⟩).authorCalls =
          [⟨[r1.id, r2.id], .cancelled, u⟩])
    ∧ ((bulkDelete wf u [r1.id, r2.id]
        ⟨CollectionStatus.inReview, [r1, r2]⟩).moderatorCalls = []) := by
  have hc1 : [r1.id, r2.id].contains r1.id = true := by simp
  have hc2 : [r1.id, r2.id].contains r2.id = true := by simp
  refine ⟨?_, ?_, ?_, ?_, rfl⟩ <;>
    simp [bulkDelete, cancelOne, reevaluate, shouldBeArchived, h1, h2, hc1, hc2]

/-- C5 witness: deleting the tests' two active requests. -/
theorem bulk_delete_cancels_then_archives_w :
    ((bulkDelete wfW 1 [mr1W.id, mr2W.id]
        ⟨CollectionStatus.inReview, [mr1W, mr2W]⟩).collection.requests = [])
    ∧ ((bulkDelete wfW 1 [mr1W.id, mr2W.id]
        ⟨CollectionStatus.inReview, [mr1W, mr2W]⟩).collection.status =
          CollectionStatus.archived)
    ∧ ((bulkDelete wfW 1 [mr1W.id, mr2W.id]
        ⟨CollectionStatus.inReview, [mr1W, mr2W]⟩).cancelled.map
          (fun r => r.actions) =
        [mr1W.actions ++ [⟨1, .cancelled, none⟩],
         mr2W.actions ++ [⟨1, .cancelled, none⟩]])
    ∧ ((bulkDelete wfW 1 [mr1W.id, mr2W.id]
        ⟨CollectionStatus.inReview, [mr1W, mr2W]⟩).authorCalls =
          [⟨[mr1W.id, mr2W.id], .cancelled, 1⟩])
    ∧ ((bulkDelete wfW 1 [mr1W.id, mr2W.id]
        ⟨CollectionStatus.inReview, [mr1W, mr2W]⟩).moderatorCalls = []) :=
  bulk_delete_cancels_then_archives wfW 1 mr1W mr2W rfl rfl

/-! ## Bulk publish (claim C4) -/

/-- The versions a publish batch forwards are exactly the versions of the
selected requests that are APPROVED and still active. -/
lemma publish_versions_eq_filter (wf : Workflow) (sel : List Nat)
    (reqs : List ModerationRequest) :
    (affectedRequests (publishOne wf) sel reqs).map (fun r => r.version) =
      (reqs.filter (fun r =>
        sel.contains r.id && (requestState wf r == MRState.approved) &&
          r.is_active)).map (fun r => r.version) := by
  induction reqs with
  | nil => rfl
  | cons a rest ih =>
      by_cases hsel : a.id ∈ sel
      · cases hst : requestState wf a with
        | approved =>
            by_cases hact : a.is_active = true
            · simp [affectedRequests, publishOne, List.filterMap_cons,
                List.filter_cons, hsel, hst, hact] at ih ⊢
              exact ih
            · simp [affectedRequests, publishOne, List.filterMap_cons,
                List.filter_cons, hsel, hst, hact] at ih ⊢
              exact ih
        | pending =>
            simp [affectedRequests, publishOne, List.filterMap_cons,
              List.filter_cons, hsel, hst] at ih ⊢
            exact ih
        | rejected =>
            simp [affectedRequests, publishOne, List.filterMap_cons,
              List.filter_cons, hsel, hst] at ih ⊢
            exact ih
        | cancelled =>
            simp [affectedRequests, publishOne, List.filterMap_cons,
              List.filter_cons, hsel, hst] at ih ⊢
            exact ih
      · simp [affectedRequests, List.filterMap_cons, List.filter_cons, hsel] at ih ⊢
        exact ih

/-- C4: bulk publish forwards to the publish collaborator exactly the
versions of the selected requests whose derived state is APPROVED and
that were not yet forwarded (still active); each such request ends up
with a PUBLISHED version and `is_active = false`, and every other
request in the collection — selected or not — is left completely
unchanged (same version state, same `is_active`). -/
theorem bulk_publish_exactly_approved (wf : Workflow) (u : Nat)
    (sel : List Nat) (c : Collection) :
    ((bulkPublish wf u sel c).publishedVersions =
      (c.requests.filter (fun r =>
        sel.contains r.id && (requestState wf r == MRState.approved) &&
          r.is_active)).map (fun r => r.version))
    ∧ ((bulkPublish wf u sel c).collection.requests.length = c.requests.length)
    ∧ (∀ (i : Nat) (r : ModerationRequest), c.requests[i]? = some r →
        (sel.contains r.id = true → requestState wf r = MRState.approved →
          r.is_active = true →
          (bulkPublish wf u sel c).collection.requests[i]? =
            some { r with
                    version_state := VersionState.published
                    is_active := false })
        ∧ (¬ (sel.contains r.id = true ∧ requestState wf r = MRState.approved ∧
              r.is_active = true) →
          (bulkPublish wf u sel c).collection.requests[i]? = some r)) := by
  refine ⟨publish_versions_eq_filter wf sel c.requests, ?_, ?_⟩
  · show (processRequests (publishOne wf) sel c.requests).length = _
    exact List.length_map c.requests _
  · intro i r hir
    have hpost : (bulkPublish wf u sel c).collection.requests[i]? =
        some (if sel.contains r.id then (publishOne wf r).getD r else r) := by
      show (processRequests (publishOne wf) sel c.requests)[i]? = _
      rw [processRequests, List.getElem?_map, hir]
      rfl
    constructor
    · intro hsel hst hact
      have hm : r.id ∈ sel := by simpa using hsel
      rw [hpost]
      simp [hm, publishOne, hst, hact]
    · intro hne
      rw [hpost]
      by_cases hm : r.id ∈ sel
      · have hsel : sel.contains r.id = true := by simpa using hm
        cases hst : requestState wf r with
        | approved =>
            by_cases hact : r.is_active = true
            · exact absurd ⟨hsel, hst, hact⟩ hne
            · simp [hm, publishOne, hst, hact]
        | pending => simp [hm, publishOne, hst]
        | rejected => simp [hm, publishOne, hst]
        | cancelled => simp [hm, publishOne, hst]
      · simp [hm]

/-- C4 witness: on the tests' collection only the approved `mr1` is
published and deactivated; the pending `mr2` keeps its DRAFT version and
stays active. -/
theorem bulk_publish_exactly_approved_w :
    ((bulkPublish wfW 1 [1, 2] cW).publishedVersions =
      (cW.requests.filter (fun r =>
        [1, 2].contains r.id && (requestState wfW r == MRState.approved) &&
          r.is_active)).map (fun r => r.version))
    ∧ ((bulkPublish wfW 1 [1, 2] cW).collection.requests[0]? =
        some { mr1W with
                version_state := VersionState.published
                is_active := false })
    ∧ ((bulkPublish wfW 1 [1, 2] cW).collection.requests[1]? = some mr2W) := by
  have hmain := bulk_publish_exactly_approved wfW 1 [1, 2] cW
  exact ⟨hmain.1,
    (hmain.2.2 0 mr1W (by decide)).1 (by decide) (by decide) (by decide),
    (hmain.2.2 1 mr2W (by decide)).2 (by decide)⟩

/-! ## Approving the last required step (claim C3) -/

/-- A one-required-step workflow for user 1. -/
def wfS : Workflow := ⟨[⟨1, ⟨some 1, []⟩, 1, true⟩]⟩

/-- A pending request against `wfS`, one approval away from completion. -/
def rS : ModerationRequest := ⟨5, 50, .draft, true, [⟨1, .started, none⟩]⟩

/-- `rS` after user 1 approves its last unsatisfied required step. -/
def rSApproved : ModerationRequest :=
  ⟨5, 50, .draft, true, [⟨1, .started, none⟩, ⟨1, .approved, some 1⟩]⟩

/-- C3 counterexample: approving the last unsatisfied required step of a
pending request turns its derived state APPROVED, but — contrary to the
claim — leaves `is_active = true` and forwards nothing to the publish
collaborator: the bulk approval's published-version list is empty, not a
single publish call.  This matches `test_publish_selected`, which
asserts a fully approved request still has `is_active = True` and a
DRAFT version until the separate publish action runs. -/
theorem approve_last_step_publishes_cex :
    approveOne wfS 1 rS = some (rSApproved, 1)
    ∧ allRequiredSatisfied wfS rSApproved.actions = true
    ∧ requestState wfS rSApproved = MRState.approved
    ∧ ¬ (rSApproved.is_active = false)
    ∧ ¬ ((bulkApprove wfS 1 [5]
          ⟨CollectionStatus.inReview, [rS]⟩).publishedVersions.length = 1) := by
  decide

/-- C3 amended: approving the last unsatisfied required step transitions
the request to derived state APPROVED but leaves `is_active` true and
emits no publish call from the approval itself; the separate publish
operation then forwards the approved request's version to the publish
collaborator exactly once and sets `is_active` to false. -/
theorem approve_last_step_then_publish (wf : Workflow) (u : Nat)
    (r r' : ModerationRequest) (k : Nat)
    (happ : approveOne wf u r = some (r', k))
    (hfull : allRequiredSatisfied wf r'.actions = true)
    (hact : r.is_active = true) :
    requestState wf r' = MRState.approved
    ∧ r'.is_active = true
    ∧ (bulkApprove wf u [r.id]
        ⟨CollectionStatus.inReview, [r]⟩).publishedVersions = []
    ∧ (bulkPublish wf u [r'.id]
        ⟨CollectionStatus.inReview, [r']⟩).publishedVersions = [r'.version]
    ∧ (bulkPublish wf u [r'.id]
        ⟨CollectionStatus.inReview, [r']⟩).collection.requests =
        [{ r' with
            version_state := VersionState.published
            is_active := false }] := by
  cases hst : requestState wf r with
  | pending =>
      cases hus : userStep wf u r.actions with
      | none => simp [approveOne, hst, hus] at happ
      | some s =>
          simp only [approveOne, hst, hus, Option.some.injEq, Prod.mk.injEq] at happ
          obtain ⟨hr', hk⟩ := happ
          subst hr'
          have hstate' : requestState wf
              { r with actions := r.actions ++ [⟨u, .approved, some s.id⟩] } =
                MRState.approved := by
            simp [requestState, List.getLast?_concat, hfull]
          have hact' :
              ({ r with actions := r.actions ++ [⟨u, .approved, some s.id⟩]} :
                ModerationRequest).is_active = true := hact
          have hfull' :
              allRequiredSatisfied wf
                (r.actions ++ [⟨u, .approved, some s.id⟩]) = true := hfull
          have hstate2 : requestState wf
              { r with
                  is_active := true
                  actions := r.actions ++ [⟨u, .approved, some s.id⟩] } =
                MRState.approved := by
            simp [requestState, List.getLast?_concat, hfull']
          refine ⟨hstate', hact', rfl, ?_, ?_⟩ <;>
            simp [bulkPublish, affectedRequests, processRequests, publishOne,
              List.filterMap_cons, hstate2, hact]
  | approved => simp [approveOne, hst] at happ
  | rejected => simp [approveOne, hst] at happ
  | cancelled => simp [approveOne, hst] at happ

/-- C3 witness: the one-step scenario, approved by user 1 and then
published. -/
theorem approve_last_step_then_publish_w :
    requestState wfS rSApproved = MRState.approved
    ∧ rSApproved.is_active = true
    ∧ (bulkApprove wfS 1 [rS.id]
        ⟨CollectionStatus.inReview, [rS]⟩).publishedVersions = []
    ∧ (bulkPublish wfS 1 [rSApproved.id]
        ⟨CollectionStatus.inReview, [rSApproved]⟩).publishedVersions =
          [rSApproved.version]
    ∧ (bulkPublish wfS 1 [rSApproved.id]
        ⟨CollectionStatus.inReview, [rSApproved]⟩).collection.requests =
        [{ rSApproved with
            version_state := VersionState.published
            is_active := false }] :=
  approve_last_step_then_publish wfS 1 rS rSApproved 1 (by decide) (by decide) rfl

/-! ## Step-group notification of bulk approve (claim C1) -/

/-- Filtering out one key and then keeping a different key is the same as
keeping that key directly. -/
lemma filter_key_filter_ne (k k' : Nat) (h : k' ≠ k) (l : List (Nat × Nat)) :
    (l.filter (fun q => q.1 != k)).filter (fun q => q.1 == k') =
      l.filter (fun q => q.1 == k') := by
  induction l with
  | nil => rfl
  | cons p rest ih =>
      by_cases hp : p.1 = k'
      · have hpk : p.1 ≠ k := by rw [hp]; exact h
        simp [List.filter_cons, hp, hpk, h, ih]
      · by_cases hpk : p.1 = k
        · simp [List.filter_cons, hp, hpk, Ne.symm h, ih]
        · simp [List.filter_cons, hp, hpk, ih]

/-- Every key produced by `keysDedup` occurs as a key of the list. -/
lemma mem_keysDedup_exists (l : List (Nat × Nat)) :
    ∀ x, x ∈ keysDedup l → ∃ p ∈ l, p.1 = x := by
  induction l using keysDedup.induct with
  | case1 => intro x hx; simp [keysDedup] at hx
  | case2 p rest ih =>
      intro x hx
      rw [keysDedup] at hx
      rcases List.mem_cons.mp hx with h | h
      · exact ⟨p, List.mem_cons_self p rest, h.symm⟩
      · obtain ⟨q, hq, hqx⟩ := ih x h
        exact ⟨q, List.mem_cons_of_mem p (List.mem_of_mem_filter hq), hqx⟩

/-- `groupPairs` is the first-occurrence-ordered list of distinct keys,
each paired with all its values in list order. -/
lemma groupPairs_eq_keysDedup (l : List (Nat × Nat)) :
    groupPairs l = (keysDedup l).map
      (fun k => (k, (l.filter (fun q => q.1 == k)).map (fun q => q.2))) := by
  induction l using groupPairs.induct with
  | case1 => simp [groupPairs, keysDedup]
  | case2 p rest ih =>
      rw [groupPairs, keysDedup, List.map_cons]
      congr 1
      · simp [List.filter_cons]
      · rw [ih]
        apply List.map_congr_left
        intro k hk
        obtain ⟨q, hq, hqk⟩ := mem_keysDedup_exists _ k hk
        have hne : k ≠ p.1 := by
          have hqp := List.of_mem_filter hq
          simp only [bne_iff_ne, ne_eq, decide_eq_true_eq] at hqp
          rw [← hqk]
          exact hqp
        have h1 := filter_key_filter_ne p.1 k hne rest
        have h2 : ((p :: rest).filter (fun q => q.1 == k)) =
            rest.filter (fun q => q.1 == k) := by
          simp [List.filter_cons, hne.symm]
        rw [h1, h2]

/-- C1 amended: when the step-group keys of the approved requests that
still have an unsatisfied required step after their approval (the
survivors) take exactly two distinct values, the bulk approval emits
exactly two moderator-notification calls — one per distinct step group,
in first-occurrence order, each listing exactly the surviving requests of
that group in processing order.  (Approved requests whose approval
completed the last required step are omitted from moderator
notifications; the original claim's count of one call per current-step
group fails when such a request exhausts a group.) -/
theorem bulk_approve_two_groups (wf : Workflow) (u : Nat) (sel : List Nat)
    (c : Collection) (k1 k2 : Nat)
    (h : keysDedup (approveSurvivorPairs wf u sel c.requests) = [k1, k2]) :
    (bulkApprove wf u sel c).moderatorCalls =
      [⟨((approveSurvivorPairs wf u sel c.requests).filter
          (fun q => q.1 == k1)).map (fun q => q.2), some k1⟩,
       ⟨((approveSurvivorPairs wf u sel c.requests).filter
          (fun q => q.1 == k2)).map (fun q => q.2), some k2⟩] := by
  show moderatorCallsFor (approveSurvivorPairs wf u sel c.requests) = _
  unfold moderatorCallsFor
  rw [groupPairs_eq_keysDedup, h]
  rfl

/-- A three-step workflow: step 1 for user 1, step 2 for user 1 via a
group, step 3 for user 2; used for the C1 witness. -/
def wfC1 : Workflow :=
  ⟨[⟨1, ⟨some 1, []⟩, 1, true⟩, ⟨2, ⟨none, [1]⟩, 1, true⟩,
    ⟨3, ⟨some 2, []⟩, 1, true⟩]⟩

/-- A request whose first step is satisfied: user 1 will act on step 2. -/
def rC1a : ModerationRequest :=
  ⟨1, 11, .draft, true, [⟨1, .started, none⟩, ⟨1, .approved, some 1⟩]⟩

/-- A freshly started request: user 1 will act on step 1. -/
def rC1b : ModerationRequest := ⟨2, 12, .draft, true, [⟨1, .started, none⟩]⟩

/-- The C1 witness collection with requests at two distinct current
steps. -/
def cC1 : Collection := ⟨.inReview, [rC1a, rC1b]⟩

/-- C1 witness: the two-group bulk approval emits exactly the two grouped
moderator calls, in first-seen order. -/
theorem bulk_approve_two_groups_w :
    (bulkApprove wfC1 1 [1, 2] cC1).moderatorCalls =
      [⟨[1], some 2⟩, ⟨[2], some 1⟩] := by
  have hsur : approveSurvivorPairs wfC1 1 [1, 2] cC1.requests = [(2, 1), (1, 2)] := by
    decide
  have h := bulk_approve_two_groups wfC1 1 [1, 2] cC1 2 1
    (by rw [hsur]; simp [keysDedup])
  rw [h, hsur]
  decide

/-- A two-step workflow: step 1 for user 1, step 2 for user 1 via a
group; used for the C1 counterexample. -/
def wfC1x : Workflow :=
  ⟨[⟨1, ⟨some 1, []⟩, 1, true⟩, ⟨2, ⟨none, [1]⟩, 1, true⟩]⟩

/-- A request one approval away from completion, current step 2. -/
def rC1xa : ModerationRequest :=
  ⟨1, 11, .draft, true, [⟨1, .started, none⟩, ⟨1, .approved, some 1⟩]⟩

/-- A freshly started request, current step 1. -/
def rC1xb : ModerationRequest := ⟨2, 12, .draft, true, [⟨1, .started, none⟩]⟩

/-- The C1 counterexample collection. -/
def cC1x : Collection := ⟨.inReview, [rC1xa, rC1xb]⟩

/-- C1 counterexample: the eligible requests of this bulk approval sit at
exactly two distinct current step-groups (keys 2 and 1), yet only one
moderator-notification call is emitted, because the approval of the
key-2 request completes its last required step and final-stage approvals
are excluded from moderator notification
(`test_approve_selected_sends_correct_emails` asserts a call count of 0
for a purely final-stage batch).  The claim's "exactly two
notify_collection_moderators calls" is therefore false as stated. -/
theorem bulk_approve_two_groups_cex :
    approveGroupKeys wfC1x 1 [1, 2] cC1x.requests = [2, 1]
    ∧ ¬ ((bulkApprove wfC1x 1 [1, 2] cC1x).moderatorCalls.length = 2)
    ∧ (bulkApprove wfC1x 1 [1, 2] cC1x).moderatorCalls.length = 1 := by
  have houtc : (approveOutcomes wfC1x 1 [1, 2] cC1x.requests).map
      (fun p => (p.2, p.1.id)) = [(2, 1), (1, 2)] := by decide
  have hsur : approveSurvivorPairs wfC1x 1 [1, 2] cC1x.requests = [(1, 2)] := by
    decide
  refine ⟨?_, ?_, ?_⟩
  · unfold approveGroupKeys
    rw [houtc]
    simp [keysDedup]
  · show ¬ ((moderatorCallsFor
        (approveSurvivorPairs wfC1x 1 [1, 2] cC1x.requests)).length = 2)
    rw [moderatorCallsFor, hsur]
    simp [groupPairs]
  · show (moderatorCallsFor
        (approveSurvivorPairs wfC1x 1 [1, 2] cC1x.requests)).length = 1
    rw [moderatorCallsFor, hsur]
    simp [groupPairs]

end Moderation
